import Mathlib

/-!
# Eclipse core.resources native library, Linux port (`library/linux/core.c`)

A shallow embedding of the JNI entry points of `core.c` and the properties of
its attribute bitmask and permission arithmetic.

Modelling conventions.

* A `jlong` is represented by its 64-bit two's complement bit pattern, a `Nat`
  below `2 ^ 64`; the multiplication `((jlong) st_mtime) * 1000` wraps modulo
  `2 ^ 64`.  The value is the `jlong` zero exactly when the pattern is `0`.
* `mode_t` values and the `int mask` of `internalSetReadOnly` are bit patterns
  in `Nat`; the `int` complement `~x` is the 32-bit complement.
* The operating system is a parameter: a record `Sys W` of the three system
  calls `stat`, `chmod`, `utime` acting on a world `W`.  Every entry point
  returns its JNI result together with the world it leaves behind and the list
  of system calls it made, in order.
-/

namespace CoreFS

/-! ## Constants -/

/-- File type mask of `st_mode`, from the Linux `<sys/stat.h>`. -/
def S_IFMT : Nat := 0o170000
/-- File type "directory", from the Linux `<sys/stat.h>`. -/
def S_IFDIR : Nat := 0o040000
/-- File type "block device", from the Linux `<sys/stat.h>`. -/
def S_IFBLK : Nat := 0o060000
/-- File type "regular file", from the Linux `<sys/stat.h>`. -/
def S_IFREG : Nat := 0o100000
/-- File type "socket", from the Linux `<sys/stat.h>`. -/
def S_IFSOCK : Nat := 0o140000

/-- Owner read permission. -/
def S_IRUSR : Nat := 0o400
/-- Owner write permission. -/
def S_IWUSR : Nat := 0o200
/-- Owner execute permission. -/
def S_IXUSR : Nat := 0o100
/-- Group read permission. -/
def S_IRGRP : Nat := 0o040
/-- Group write permission. -/
def S_IWGRP : Nat := 0o020
/-- Group execute permission. -/
def S_IXGRP : Nat := 0o010
/-- Others read permission. -/
def S_IROTH : Nat := 0o004
/-- Others write permission. -/
def S_IWOTH : Nat := 0o002
/-- Others execute permission. -/
def S_IXOTH : Nat := 0o001
/-- BSD name of the owner write bit: `#define S_IWRITE S_IWUSR`. -/
def S_IWRITE : Nat := S_IWUSR

/-- The three flag constants of `core.h`, each a `jlong` bit pattern.  The
header is not part of the sources at hand, so `internalGetStat` takes the
constants as a parameter. -/
structure CoreH where
  STAT_VALID : Nat
  STAT_FOLDER : Nat
  STAT_READ_ONLY : Nat
deriving DecidableEq, Repr

/-- Modelled from the spec: the header `core.h` is absent; these are the values
its upstream version gives `STAT_VALID`, `STAT_FOLDER` and `STAT_READ_ONLY`,
bits 62, 61 and 60 of the attribute bitmask, above the time in milliseconds. -/
def upstreamCoreH : CoreH :=
  { STAT_VALID := 0x4000000000000000
    STAT_FOLDER := 0x2000000000000000
    STAT_READ_ONLY := 0x1000000000000000 }

/-! ## Machine integers -/

/-- Bit pattern of a 64-bit signed integer (`jlong`) holding the mathematical
value `x` modulo `2 ^ 64`. -/
def wrap64 (x : Int) : Nat := (x % 18446744073709551616).toNat

/-- Result of `~x` on a 32-bit `int`, as a bit pattern. -/
def not32 (x : Nat) : Nat := 4294967295 ^^^ x

/-! ## The operating system interface -/

/-- The fields of `struct stat` that `core.c` reads. -/
structure Stat where
  st_mode : Nat
  st_mtime : Int
deriving DecidableEq, Repr

/-- A system call as issued by the library: the path buffer and the remaining
arguments.  The second argument of `utime` is the value the caller put in the
`const struct utimbuf *` parameter, i.e. an address. -/
inductive Call where
  | stat (name : List Int)
  | chmod (name : List Int) (mode : Nat)
  | utime (name : List Int) (times : Int)
deriving DecidableEq, Repr

/-- The system calls used by `core.c`, over a world `W`.

* `stat w name` is the return code and the contents of the caller's
  `struct stat` buffer after the call (after a failed call: whatever the
  uninitialised buffer holds);
* `chmod w name mode` and `utime w name times` give the return code and the
  world after the call. -/
structure Sys (W : Type) where
  stat : W → List Int → Int × Stat
  chmod : W → List Int → Nat → Int × W
  utime : W → List Int → Int → Int × W

/-- What a call of an entry point yields: the JNI return value, the world
afterwards and the system calls made, in order. -/
structure Outcome (W : Type) (α : Type) where
  result : α
  world : W
  trace : List Call

/-! ## `core.c`

The JNI functions `Java_<class>_<method>` of the class
`org_eclipse_core_internal_localstore_CoreFileSystemLibrary` are the
definitions `<method>` of the namespace of that name.  The `JNIEnv` and
`jclass` arguments carry no data the functions read; a `jbyteArray` is the list
of its bytes and a `jcharArray` the list of its characters. -/

/-- The helper `getByteArray`: a fresh buffer holding the bytes of the Java array
followed by a terminating `'\0'`. -/
def getByteArray (target : List Int) : List Int := target ++ [0]

namespace Java_org_eclipse_core_internal_localstore_CoreFileSystemLibrary

/-- Method `internalIsUnicode`, the JNI function
`Java_org_eclipse_core_internal_localstore_CoreFileSystemLibrary_internalIsUnicode`. -/
def internalIsUnicode : Bool := false

/-- Method `internalGetStatW`, the JNI function
`Java_org_eclipse_core_internal_localstore_CoreFileSystemLibrary_internalGetStatW`. -/
def internalGetStatW {W : Type} (_S : Sys W) (w : W) (_target : List Nat) : Outcome W Nat :=
  ⟨0, w, []⟩

/-- Method `internalGetStat`, the JNI function
`Java_org_eclipse_core_internal_localstore_CoreFileSystemLibrary_internalGetStat`. -/
def internalGetStat {W : Type} (c : CoreH) (S : Sys W) (w : W) (target : List Int) :
    Outcome W Nat :=
  let name := getByteArray target
  let code := (S.stat w name).1
  let info := (S.stat w name).2
  if code = -1 then
    ⟨0, w, [Call.stat name]⟩
  else
    let result := wrap64 (info.st_mtime * 1000)
    let result := result ||| c.STAT_VALID
    let result :=
      if info.st_mode &&& S_IFDIR = S_IFDIR then result ||| c.STAT_FOLDER else result
    let result :=
      if info.st_mode &&& S_IWRITE ≠ S_IWRITE then result ||| c.STAT_READ_ONLY else result
    ⟨result, w, [Call.stat name]⟩

/-- Method `internalSetReadOnly`, the JNI function
`Java_org_eclipse_core_internal_localstore_CoreFileSystemLibrary_internalSetReadOnly`.
The return code of `stat` is overwritten without being read, and `info` is
read whatever that code was. -/
def internalSetReadOnly {W : Type} (S : Sys W) (w : W) (target : List Int)
    (readOnly : Bool) : Outcome W Bool :=
  let name := getByteArray target
  let info := (S.stat w name).2
  let mask := S_IRUSR ||| S_IWUSR ||| S_IXUSR ||| S_IRGRP ||| S_IWGRP ||| S_IXGRP |||
    S_IROTH ||| S_IWOTH ||| S_IXOTH
  let mask := mask &&& info.st_mode
  let mask :=
    if readOnly then mask &&& not32 (S_IWUSR ||| S_IWGRP ||| S_IWOTH)
    else mask ||| (S_IRUSR ||| S_IWUSR)
  let r := S.chmod w name mask
  ⟨r.1 != -1, r.2, [Call.stat name, Call.chmod name mask]⟩

/-- Method `internalSetReadOnlyW`, the JNI function
`Java_org_eclipse_core_internal_localstore_CoreFileSystemLibrary_internalSetReadOnlyW`. -/
def internalSetReadOnlyW {W : Type} (_S : Sys W) (w : W) (_target : List Nat)
    (_readOnly : Bool) : Outcome W Bool :=
  ⟨false, w, []⟩

/-- Method `internalCopyAttributes`, the JNI function
`Java_org_eclipse_core_internal_localstore_CoreFileSystemLibrary_internalCopyAttributes`.
The second argument of `utime` is `info.st_mtime`. -/
def internalCopyAttributes {W : Type} (S : Sys W) (w : W) (source destination : List Int)
    (copyLastModified : Bool) : Outcome W Bool :=
  let sourceFile := getByteArray source
  let destinationFile := getByteArray destination
  let code := (S.stat w sourceFile).1
  let info := (S.stat w sourceFile).2
  if code = 0 then
    let r := S.chmod w destinationFile info.st_mode
    if r.1 = 0 ∧ copyLastModified = true then
      let u := S.utime r.2 destinationFile info.st_mtime
      ⟨u.1 != -1, u.2,
        [Call.stat sourceFile, Call.chmod destinationFile info.st_mode,
          Call.utime destinationFile info.st_mtime]⟩
    else
      ⟨r.1 != -1, r.2, [Call.stat sourceFile, Call.chmod destinationFile info.st_mode]⟩
  else
    ⟨code != -1, w, [Call.stat sourceFile]⟩

/-- Method `internalCopyAttributesW`, the JNI function
`Java_org_eclipse_core_internal_localstore_CoreFileSystemLibrary_internalCopyAttributesW`. -/
def internalCopyAttributesW {W : Type} (_S : Sys W) (w : W) (_source _destination : List Nat)
    (_copyLastModified : Bool) : Outcome W Bool :=
  ⟨false, w, []⟩

end Java_org_eclipse_core_internal_localstore_CoreFileSystemLibrary

open Java_org_eclipse_core_internal_localstore_CoreFileSystemLibrary

/-- The ant entry point, class `org_eclipse_ant_core_EclipseFileUtils`, method
`internalCopyAttributes`: calls the core entry point with the same arguments. -/
def Java_org_eclipse_ant_core_EclipseFileUtils_internalCopyAttributes {W : Type} (S : Sys W)
    (w : W) (source destination : List Int) (copyLastModified : Bool) : Outcome W Bool :=
  internalCopyAttributes S w source destination copyLastModified

/-! ## A reference operating system

The theorems below hold for every `Sys`.  To instantiate them, a small model
of the POSIX behaviour of the three calls: a table of files, a clock, and the
part of the process memory that `utime` may read. -/

/-- A file of the reference file system: its `st_mode` (type and permission
bits) and modification time in seconds. -/
structure File where
  mode : Nat
  mtime : Int
deriving DecidableEq, Repr

/-- The reference world: the files by path buffer, the current time, the
`modtime` field of the `struct utimbuf` readable at an address (if the address
is mapped), and the contents of the uninitialised `struct stat` on the stack. -/
structure Posix where
  files : List Int → Option File
  now : Int
  mem : Int → Option Int
  stack : Stat

/-- POSIX `stat`: `0` and the file's attributes, or `-1` with the buffer left
as it was. -/
def Posix.stat (w : Posix) (name : List Int) : Int × Stat :=
  match w.files name with
  | some f => (0, ⟨f.mode, f.mtime⟩)
  | none => (-1, w.stack)

/-- POSIX `chmod`: replaces the twelve mode bits `07777` of an existing file
and keeps its file type; `-1` when the file does not exist. -/
def Posix.chmod (w : Posix) (name : List Int) (mode : Nat) : Int × Posix :=
  match w.files name with
  | some f =>
    (0, { w with
          files := Function.update w.files name
            (some { f with mode := (f.mode &&& S_IFMT) ||| (mode &&& 0o7777) }) })
  | none => (-1, w)

/-- POSIX `utime`: with a null `times` pointer the modification time becomes
the current time; otherwise it is read from the `struct utimbuf` at that
address, and the call fails with `-1` (`EFAULT`) when the address is not
mapped.  Also `-1` when the file does not exist. -/
def Posix.utime (w : Posix) (name : List Int) (times : Int) : Int × Posix :=
  match w.files name with
  | none => (-1, w)
  | some f =>
    if times = 0 then
      (0, { w with files := Function.update w.files name (some { f with mtime := w.now }) })
    else
      match w.mem times with
      | some t =>
        (0, { w with files := Function.update w.files name (some { f with mtime := t }) })
      | none => (-1, w)

/-- The reference operating system. -/
def Posix.sys : Sys Posix :=
  { stat := Posix.stat, chmod := Posix.chmod, utime := Posix.utime }

/-- A world with a regular file `f` (mode `0100644`), a directory `d`
(`040755`), a block device `b` (`060660`), a read-only file `r` (`0100444`)
and a file `e` last modified at the epoch; no `struct utimbuf` is mapped. -/
def demoWorld : Posix :=
  { files := fun p =>
      if p = [102, 0] then some ⟨0o100644, 1000000000⟩
      else if p = [100, 0] then some ⟨0o040755, 1000000001⟩
      else if p = [98, 0] then some ⟨0o060660, 1000000002⟩
      else if p = [114, 0] then some ⟨0o100444, 1000000003⟩
      else if p = [101, 0] then some ⟨0o100600, 0⟩
      else none
    now := 1700000000
    mem := fun _ => none
    stack := ⟨0, 0⟩ }

theorem or_or_or_and_absorb (a b c d : Nat) : (((a ||| b) ||| c) ||| d) &&& b = b := by
  apply Nat.eq_of_testBit_eq
  intro i
  rw [Nat.testBit_and, Nat.testBit_or, Nat.testBit_or, Nat.testBit_or]
  cases a.testBit i <;> cases b.testBit i <;> cases c.testBit i <;> cases d.testBit i <;> rfl

theorem or_swap_right (a b c : Nat) : (a ||| b) ||| c = (a ||| c) ||| b := by
  rw [Nat.or_assoc, Nat.or_comm b c, ← Nat.or_assoc]

theorem and_S_IWRITE_ne_iff (m : Nat) : m &&& S_IWRITE ≠ S_IWRITE ↔ m.testBit 7 = false := by
  have h := Nat.and_two_pow m 7
  norm_num at h
  show m &&& 128 ≠ 128 ↔ _
  rw [h]
  cases m.testBit 7 <;> simp

/-- The value of `internalGetStat` after a successful `stat`. -/
theorem internalGetStat_of_ok {W : Type} (c : CoreH) (S : Sys W) (w : W) (target : List Int)
    (h : (S.stat w (getByteArray target)).1 ≠ -1) :
    (internalGetStat c S w target).result =
      ((wrap64 ((S.stat w (getByteArray target)).2.st_mtime * 1000) ||| c.STAT_VALID) |||
        (if (S.stat w (getByteArray target)).2.st_mode &&& S_IFDIR = S_IFDIR
          then c.STAT_FOLDER else 0)) |||
        (if (S.stat w (getByteArray target)).2.st_mode &&& S_IWRITE ≠ S_IWRITE
          then c.STAT_READ_ONLY else 0) := by
  unfold internalGetStat
  simp only [h, if_false]
  split_ifs <;> simp

/-- The value of `internalGetStat` after a failed `stat`. -/
theorem internalGetStat_of_fail {W : Type} (c : CoreH) (S : Sys W) (w : W) (target : List Int)
    (h : (S.stat w (getByteArray target)).1 = -1) :
    (internalGetStat c S w target).result = 0 := by
  unfold internalGetStat
  simp [h]

/-- C1. `internalGetStat`, for every path and every outcome of `stat`: when
`stat` returns `-1` the result is `0`; otherwise the result has `STAT_VALID`
set and is `(st_mtime * 1000) | STAT_VALID`, with `STAT_READ_ONLY` or-ed in
exactly when the owner write bit (bit 7, `0200`) of `st_mode` is clear, or
that value with `STAT_FOLDER` or-ed in.  When `STAT_VALID` is not zero, a
result without `STAT_VALID` is `0`, and the result is `0` only if `stat`
returned `-1`. -/
theorem internalGetStat_contract {W : Type} (c : CoreH) (S : Sys W) (w : W)
    (target : List Int) :
    ((S.stat w (getByteArray target)).1 = -1 → (internalGetStat c S w target).result = 0) ∧
    ((S.stat w (getByteArray target)).1 ≠ -1 →
      (internalGetStat c S w target).result &&& c.STAT_VALID = c.STAT_VALID ∧
      ((internalGetStat c S w target).result =
          (wrap64 ((S.stat w (getByteArray target)).2.st_mtime * 1000) ||| c.STAT_VALID) |||
            (if (S.stat w (getByteArray target)).2.st_mode.testBit 7 = false
              then c.STAT_READ_ONLY else 0) ∨
        (internalGetStat c S w target).result =
          ((wrap64 ((S.stat w (getByteArray target)).2.st_mtime * 1000) ||| c.STAT_VALID) |||
            (if (S.stat w (getByteArray target)).2.st_mode.testBit 7 = false
              then c.STAT_READ_ONLY else 0)) ||| c.STAT_FOLDER)) ∧
    (c.STAT_VALID ≠ 0 →
      ((internalGetStat c S w target).result &&& c.STAT_VALID = 0 →
        (internalGetStat c S w target).result = 0) ∧
      ((internalGetStat c S w target).result = 0 →
        (S.stat w (getByteArray target)).1 = -1)) := by
  have hvalid : (S.stat w (getByteArray target)).1 ≠ -1 →
      (internalGetStat c S w target).result &&& c.STAT_VALID = c.STAT_VALID := by
    intro h
    rw [internalGetStat_of_ok c S w target h]
    exact or_or_or_and_absorb _ _ _ _
  refine ⟨internalGetStat_of_fail c S w target, fun h => ⟨hvalid h, ?_⟩,
    fun hV => ⟨?_, ?_⟩⟩
  · rw [internalGetStat_of_ok c S w target h]
    simp only [and_S_IWRITE_ne_iff]
    by_cases hd : (S.stat w (getByteArray target)).2.st_mode &&& S_IFDIR = S_IFDIR
    · right
      rw [if_pos hd, or_swap_right]
    · left
      rw [if_neg hd, Nat.or_zero]
  · intro h0
    by_cases h : (S.stat w (getByteArray target)).1 = -1
    · exact internalGetStat_of_fail c S w target h
    · exact absurd ((hvalid h).symm.trans h0) hV
  · intro h0
    by_contra h
    have := hvalid h
    rw [h0, Nat.zero_and] at this
    exact hV this.symm

/-- C1 on the reference operating system: the missing path `x` gives `0`, and
the regular file `f` (mode `0100644`, `st_mtime = 1000000000`) gives
`1000000000000 | STAT_VALID`, which is not `0`. -/
theorem internalGetStat_contract_witness :
    (internalGetStat upstreamCoreH Posix.sys demoWorld [120]).result = 0 ∧
    (internalGetStat upstreamCoreH Posix.sys demoWorld [102]).result =
      1000000000000 ||| upstreamCoreH.STAT_VALID ∧
    (internalGetStat upstreamCoreH Posix.sys demoWorld [102]).result ≠ 0 := by
  have h1 := (internalGetStat_contract upstreamCoreH Posix.sys demoWorld [120]).1 (by decide)
  have h2 := (internalGetStat_contract upstreamCoreH Posix.sys demoWorld [102]).2.2 (by decide)
  refine ⟨h1, by decide, fun h => ?_⟩
  exact absurd (h2.2 h) (by decide)

theorem wrap64_of_range (x : Int) (h0 : 0 ≤ x) (h1 : x < 1152921504606846976) :
    wrap64 x < 2 ^ 60 := by
  unfold wrap64
  rw [Int.emod_eq_of_lt h0 (by omega)]
  omega

/-- Bit 61 of the word built by `internalGetStat` with the upstream constants,
when the time part stays below bit 60. -/
theorem statWord_and_folder (t : Nat) (ht : t < 2 ^ 60) (d r : Bool) :
    (((t ||| 0x4000000000000000) ||| (if d then 0x2000000000000000 else 0)) |||
      (if r then 0x1000000000000000 else 0)) &&& 0x2000000000000000 =
      if d then 0x2000000000000000 else 0 := by
  have h61 : t.testBit 61 = false :=
    Nat.testBit_lt_two_pow (lt_of_lt_of_le ht (by norm_num))
  have e : (0x2000000000000000 : Nat) = 2 ^ 61 := by norm_num
  have key : ∀ x : Nat, x &&& 0x2000000000000000 = (x.testBit 61).toNat * 2 ^ 61 := by
    intro x
    rw [e]
    exact Nat.and_two_pow x 61
  rw [key, Nat.testBit_or, Nat.testBit_or, Nat.testBit_or, h61]
  cases d <;> cases r <;> decide

theorem and_S_IFDIR_eq (m : Nat) : m &&& S_IFDIR = (m &&& S_IFMT) &&& S_IFDIR := by
  rw [Nat.and_assoc]
  rfl

/-- What the code does for the folder flag: with the upstream constants and a
time that does not reach the flag bits, `STAT_FOLDER` is set exactly when
`(st_mode & S_IFDIR) == S_IFDIR`. -/
theorem internalGetStat_folder_iff {W : Type} (S : Sys W) (w : W) (target : List Int)
    (hok : (S.stat w (getByteArray target)).1 ≠ -1)
    (h0 : 0 ≤ (S.stat w (getByteArray target)).2.st_mtime * 1000)
    (h1 : (S.stat w (getByteArray target)).2.st_mtime * 1000 < 2 ^ 60) :
    (internalGetStat upstreamCoreH S w target).result &&& upstreamCoreH.STAT_FOLDER =
      if (S.stat w (getByteArray target)).2.st_mode &&& S_IFDIR = S_IFDIR
        then upstreamCoreH.STAT_FOLDER else 0 := by
  rw [internalGetStat_of_ok upstreamCoreH S w target hok]
  have ht := wrap64_of_range _ h0 (by simpa using h1)
  have := statWord_and_folder _ ht
    (decide ((S.stat w (getByteArray target)).2.st_mode &&& S_IFDIR = S_IFDIR))
    (decide ((S.stat w (getByteArray target)).2.st_mode &&& S_IWRITE ≠ S_IWRITE))
  simpa [upstreamCoreH] using this

/-- The folder flag is set for every directory. -/
theorem internalGetStat_folder_of_directory {W : Type} (S : Sys W) (w : W) (target : List Int)
    (hok : (S.stat w (getByteArray target)).1 ≠ -1)
    (h0 : 0 ≤ (S.stat w (getByteArray target)).2.st_mtime * 1000)
    (h1 : (S.stat w (getByteArray target)).2.st_mtime * 1000 < 2 ^ 60)
    (hdir : (S.stat w (getByteArray target)).2.st_mode &&& S_IFMT = S_IFDIR) :
    (internalGetStat upstreamCoreH S w target).result &&& upstreamCoreH.STAT_FOLDER =
      upstreamCoreH.STAT_FOLDER := by
  rw [internalGetStat_folder_iff S w target hok h0 h1, if_pos]
  rw [and_S_IFDIR_eq, hdir]
  decide

/-- The folder flag is unset for every regular file. -/
theorem internalGetStat_not_folder_of_regular {W : Type} (S : Sys W) (w : W)
    (target : List Int)
    (hok : (S.stat w (getByteArray target)).1 ≠ -1)
    (h0 : 0 ≤ (S.stat w (getByteArray target)).2.st_mtime * 1000)
    (h1 : (S.stat w (getByteArray target)).2.st_mtime * 1000 < 2 ^ 60)
    (hreg : (S.stat w (getByteArray target)).2.st_mode &&& S_IFMT = S_IFREG) :
    (internalGetStat upstreamCoreH S w target).result &&& upstreamCoreH.STAT_FOLDER = 0 := by
  rw [internalGetStat_folder_iff S w target hok h0 h1, if_neg]
  intro h
  rw [and_S_IFDIR_eq, hreg] at h
  revert h
  decide

/-- C2, the code at a block device.  In `demoWorld` the path `b` is a block
device: `stat` succeeds, `st_mtime * 1000` lies in `[0, 2 ^ 60)`, and the file
type `st_mode & S_IFMT` is `S_IFBLK`, not `S_IFDIR`.  `internalGetStat` returns
a word with `STAT_VALID` and `STAT_FOLDER` both set. -/
theorem internalGetStat_block_device_reported_as_folder :
    Posix.sys.stat demoWorld (getByteArray [98]) = (0, ⟨0o060660, 1000000002⟩) ∧
    (0 : Int) ≤ 1000000002 * 1000 ∧ (1000000002 * 1000 : Int) < 2 ^ 60 ∧
    0o060660 &&& S_IFMT = S_IFBLK ∧ 0o060660 &&& S_IFMT ≠ S_IFDIR ∧
    (internalGetStat upstreamCoreH Posix.sys demoWorld [98]).result &&&
      upstreamCoreH.STAT_VALID = upstreamCoreH.STAT_VALID ∧
    (internalGetStat upstreamCoreH Posix.sys demoWorld [98]).result &&&
      upstreamCoreH.STAT_FOLDER = upstreamCoreH.STAT_FOLDER := by
  refine ⟨rfl, by norm_num, by norm_num, by decide, by decide, by decide, by decide⟩

/-! ## `internalSetReadOnly` -/

/-- The mode `internalSetReadOnly` hands to `chmod`, as a function of the
`st_mode` in the `struct stat` buffer and of the flag. -/
theorem internalSetReadOnly_trace {W : Type} (S : Sys W) (w : W) (target : List Int)
    (readOnly : Bool) :
    (internalSetReadOnly S w target readOnly).trace =
      [Call.stat (getByteArray target),
        Call.chmod (getByteArray target)
          (if readOnly then (S.stat w (getByteArray target)).2.st_mode &&& 0o555
            else ((S.stat w (getByteArray target)).2.st_mode &&& 0o777) ||| 0o600)] := by
  have e1 : ∀ m : Nat, (S_IRUSR ||| S_IWUSR ||| S_IXUSR ||| S_IRGRP ||| S_IWGRP ||| S_IXGRP |||
      S_IROTH ||| S_IWOTH ||| S_IXOTH) &&& m = m &&& 0o777 := by
    intro m
    rw [Nat.and_comm]
    rfl
  have e2 : ∀ m : Nat,
      (m &&& 0o777) &&& not32 (S_IWUSR ||| S_IWGRP ||| S_IWOTH) = m &&& 0o555 := by
    intro m
    rw [Nat.and_assoc]
    rfl
  have e3 : S_IRUSR ||| S_IWUSR = 0o600 := rfl
  unfold internalSetReadOnly
  cases readOnly
  · simp only [e1]
    simp [e3]
  · simp only [e1, e2]
    simp

theorem and_and_of_and_eq_zero (m a b : Nat) (h : a &&& b = 0) : (m &&& a) &&& b = 0 := by
  rw [Nat.and_assoc, h, Nat.and_zero]

theorem and_and_of_and_eq (m a b : Nat) (h : a &&& b = b) : (m &&& a) &&& b = m &&& b := by
  rw [Nat.and_assoc, h]

theorem and_and_of_and_eq_left (m a b : Nat) (h : a &&& b = a) : (m &&& a) &&& b = m &&& a := by
  rw [Nat.and_assoc, h]

theorem or_and_of_disjoint (x a b : Nat) (h : a &&& b = 0) : (x ||| a) &&& b = x &&& b := by
  apply Nat.eq_of_testBit_eq
  intro i
  have hi : (a &&& b).testBit i = false := by rw [h]; exact Nat.zero_testBit i
  rw [Nat.testBit_and] at hi
  rw [Nat.testBit_and, Nat.testBit_or, Nat.testBit_and]
  cases hx : x.testBit i <;> cases ha : a.testBit i <;> cases hb : b.testBit i <;>
    simp_all

theorem or_and_of_subset (x a b : Nat) (h : a &&& b = b) : (x ||| a) &&& b = b := by
  apply Nat.eq_of_testBit_eq
  intro i
  have hi : (a &&& b).testBit i = b.testBit i := by rw [h]
  rw [Nat.testBit_and] at hi
  rw [Nat.testBit_and, Nat.testBit_or]
  cases hx : x.testBit i <;> cases ha : a.testBit i <;> cases hb : b.testBit i <;>
    simp_all

/-- C4. `internalSetReadOnly` with `readOnly = true`, for every `st_mode` in
the `struct stat` buffer: the calls are `stat` then `chmod` on the path, and
the mode given to `chmod` has the three write bits `0222` clear, agrees with
`st_mode` on the six read and execute bits `0555`, has no bit outside `0777`,
and equals `(st_mode & 0777) & ~0222`. -/
theorem internalSetReadOnly_true_mode {W : Type} (S : Sys W) (w : W) (target : List Int) :
    ∃ mode : Nat,
      (internalSetReadOnly S w target true).trace =
        [Call.stat (getByteArray target), Call.chmod (getByteArray target) mode] ∧
      mode &&& 0o222 = 0 ∧
      mode &&& 0o555 = (S.stat w (getByteArray target)).2.st_mode &&& 0o555 ∧
      mode &&& 0o777 = mode ∧
      mode = ((S.stat w (getByteArray target)).2.st_mode &&& 0o777) &&& not32 0o222 := by
  refine ⟨(S.stat w (getByteArray target)).2.st_mode &&& 0o555, ?_, ?_, ?_, ?_, ?_⟩
  · rw [internalSetReadOnly_trace]
    rfl
  · exact and_and_of_and_eq_zero _ 0o555 0o222 (by decide)
  · exact and_and_of_and_eq _ 0o555 0o555 (by decide)
  · exact and_and_of_and_eq_left _ 0o555 0o777 (by decide)
  · rw [Nat.and_assoc]
    rfl

/-- C5, as the code has it.  `internalSetReadOnly` with `readOnly = false`,
for every `st_mode` in the `struct stat` buffer: the mode given to `chmod` has
the owner read and owner write bits `0600` set, agrees with `st_mode` on the
other seven permission bits `0177` (group and other write included), and has
no bit outside `0777`. -/
theorem internalSetReadOnly_false_mode {W : Type} (S : Sys W) (w : W) (target : List Int) :
    ∃ mode : Nat,
      (internalSetReadOnly S w target false).trace =
        [Call.stat (getByteArray target), Call.chmod (getByteArray target) mode] ∧
      mode &&& 0o600 = 0o600 ∧
      mode &&& 0o177 = (S.stat w (getByteArray target)).2.st_mode &&& 0o177 ∧
      mode &&& 0o777 = mode ∧
      mode = ((S.stat w (getByteArray target)).2.st_mode &&& 0o777) ||| 0o600 := by
  refine ⟨((S.stat w (getByteArray target)).2.st_mode &&& 0o777) ||| 0o600, ?_, ?_, ?_, ?_, rfl⟩
  · rw [internalSetReadOnly_trace]
    rfl
  · have h : (0o600 : Nat) &&& 0o600 = 0o600 := by decide
    exact or_and_of_subset _ _ _ h
  · rw [or_and_of_disjoint _ 0o600 0o177 (by decide)]
    exact and_and_of_and_eq _ 0o777 0o177 (by decide)
  · rw [Nat.and_comm, Nat.and_or_distrib_left, Nat.and_comm, Nat.and_assoc]
    rfl

/-- C5, the claim at a read-only file.  In `demoWorld` the file `r` has mode
`0100444`.  Clearing read-only gives `chmod` the mode `0644`: owner read and
write are set, the group write bit and the other write bit are not. -/
theorem internalSetReadOnly_false_keeps_group_other_write :
    Posix.sys.stat demoWorld (getByteArray [114]) = (0, ⟨0o100444, 1000000003⟩) ∧
    (internalSetReadOnly Posix.sys demoWorld [114] false).trace =
      [Call.stat (getByteArray [114]), Call.chmod (getByteArray [114]) 0o644] ∧
    0o644 &&& S_IWGRP = 0 ∧ 0o644 &&& S_IWOTH = 0 ∧
    ¬ (0o644 &&& (S_IWUSR ||| S_IWGRP ||| S_IWOTH) = S_IWUSR ||| S_IWGRP ||| S_IWOTH) := by
  refine ⟨rfl, by decide, by decide, by decide, by decide⟩

/-- C6. `internalSetReadOnly`, for every path, flag and outcome of `stat`:
the calls are `stat` then `chmod` on the path, the result is `true` exactly
when that `chmod` returns a value other than `-1`, and the world left behind
is the one `chmod` leaves. -/
theorem internalSetReadOnly_result {W : Type} (S : Sys W) (w : W) (target : List Int)
    (readOnly : Bool) :
    ∃ mode : Nat,
      (internalSetReadOnly S w target readOnly).trace =
        [Call.stat (getByteArray target), Call.chmod (getByteArray target) mode] ∧
      ((internalSetReadOnly S w target readOnly).result = true ↔
        (S.chmod w (getByteArray target) mode).1 ≠ -1) ∧
      (internalSetReadOnly S w target readOnly).world =
        (S.chmod w (getByteArray target) mode).2 := by
  refine ⟨_, rfl, ?_, rfl⟩
  simp [internalSetReadOnly]

/-! ## Setting the flag, then querying -/

/-- The system calls `internalCopyAttributes` makes, for every operating
system: `stat` of the source; then, only if it returned `0`, `chmod` of the
destination with the source's `st_mode`; then, only if that returned `0` and
`copyLastModified` is set, `utime` of the destination, whose second argument
is the source's `st_mtime`. -/
theorem internalCopyAttributes_trace {W : Type} (S : Sys W) (w : W)
    (source destination : List Int) (copyLastModified : Bool) :
    (internalCopyAttributes S w source destination copyLastModified).trace =
      Call.stat (getByteArray source) ::
        (if (S.stat w (getByteArray source)).1 = 0 then
          Call.chmod (getByteArray destination) (S.stat w (getByteArray source)).2.st_mode ::
            (if (S.chmod w (getByteArray destination)
                  (S.stat w (getByteArray source)).2.st_mode).1 = 0 ∧ copyLastModified = true
              then [Call.utime (getByteArray destination)
                (S.stat w (getByteArray source)).2.st_mtime]
              else [])
        else []) := by
  by_cases h1 : (S.stat w (getByteArray source)).1 = 0
  · by_cases h2 : (S.chmod w (getByteArray destination)
        (S.stat w (getByteArray source)).2.st_mode).1 = 0 ∧ copyLastModified = true
    · simp only [internalCopyAttributes, h1, h2, and_self, if_true]
    · simp only [internalCopyAttributes, h1, h2, if_true, if_false]
  · simp only [internalCopyAttributes, h1, if_false]

/-- The world `internalCopyAttributes` leaves behind. -/
theorem internalCopyAttributes_world {W : Type} (S : Sys W) (w : W)
    (source destination : List Int) (copyLastModified : Bool) :
    (internalCopyAttributes S w source destination copyLastModified).world =
      if (S.stat w (getByteArray source)).1 = 0 then
        if (S.chmod w (getByteArray destination)
              (S.stat w (getByteArray source)).2.st_mode).1 = 0 ∧ copyLastModified = true
        then (S.utime (S.chmod w (getByteArray destination)
              (S.stat w (getByteArray source)).2.st_mode).2 (getByteArray destination)
              (S.stat w (getByteArray source)).2.st_mtime).2
        else (S.chmod w (getByteArray destination)
              (S.stat w (getByteArray source)).2.st_mode).2
      else w := by
  by_cases h1 : (S.stat w (getByteArray source)).1 = 0
  · by_cases h2 : (S.chmod w (getByteArray destination)
        (S.stat w (getByteArray source)).2.st_mode).1 = 0 ∧ copyLastModified = true
    · simp only [internalCopyAttributes, h1, h2, and_self, if_true]
    · simp only [internalCopyAttributes, h1, h2, if_true, if_false]
  · simp only [internalCopyAttributes, h1, if_false]

/-- C7. With `stat`, `chmod` and `utime` returning `0` or `-1`, for every
source, destination and `copyLastModified`: `internalCopyAttributes` returns
`true` exactly when `stat` of the source returns `0`, `chmod` of the
destination returns `0`, and `copyLastModified` is false or `utime` of the
destination returns `0`.  The calls made are `stat`, then `chmod` only after a
successful `stat`, then `utime` only after a successful `chmod` with
`copyLastModified` true; after a failed `stat` the only call is that `stat`
and the world is unchanged. -/
theorem internalCopyAttributes_result {W : Type} (S : Sys W)
    (hstat : ∀ w p, (S.stat w p).1 = 0 ∨ (S.stat w p).1 = -1)
    (hchmod : ∀ w p m, (S.chmod w p m).1 = 0 ∨ (S.chmod w p m).1 = -1)
    (hutime : ∀ w p t, (S.utime w p t).1 = 0 ∨ (S.utime w p t).1 = -1)
    (w : W) (source destination : List Int) (copyLastModified : Bool) :
    ((internalCopyAttributes S w source destination copyLastModified).result = true ↔
      (S.stat w (getByteArray source)).1 = 0 ∧
      (S.chmod w (getByteArray destination) (S.stat w (getByteArray source)).2.st_mode).1 = 0 ∧
      (copyLastModified = false ∨
        (S.utime (S.chmod w (getByteArray destination)
            (S.stat w (getByteArray source)).2.st_mode).2 (getByteArray destination)
          (S.stat w (getByteArray source)).2.st_mtime).1 = 0)) ∧
    (internalCopyAttributes S w source destination copyLastModified).trace =
      Call.stat (getByteArray source) ::
        (if (S.stat w (getByteArray source)).1 = 0 then
          Call.chmod (getByteArray destination) (S.stat w (getByteArray source)).2.st_mode ::
            (if (S.chmod w (getByteArray destination)
                  (S.stat w (getByteArray source)).2.st_mode).1 = 0 ∧ copyLastModified = true
              then [Call.utime (getByteArray destination)
                (S.stat w (getByteArray source)).2.st_mtime]
              else [])
        else []) ∧
    ((S.stat w (getByteArray source)).1 ≠ 0 →
      (internalCopyAttributes S w source destination copyLastModified).trace =
        [Call.stat (getByteArray source)] ∧
      (internalCopyAttributes S w source destination copyLastModified).world = w) := by
  refine ⟨?_, internalCopyAttributes_trace S w source destination copyLastModified, ?_⟩
  · unfold internalCopyAttributes
    rcases hstat w (getByteArray source) with h | h
    · rcases hchmod w (getByteArray destination)
        (S.stat w (getByteArray source)).2.st_mode with h2 | h2
      · cases copyLastModified
        · simp [h, h2]
        · rcases hutime (S.chmod w (getByteArray destination)
            (S.stat w (getByteArray source)).2.st_mode).2 (getByteArray destination)
            (S.stat w (getByteArray source)).2.st_mtime with h3 | h3
          · simp [h, h2, h3]
          · simp [h, h2, h3]
      · simp [h, h2]
    · simp [h]
  · intro h
    rw [internalCopyAttributes_trace, internalCopyAttributes_world]
    simp [h]

theorem Posix.stat_code (w : Posix) (p : List Int) :
    (Posix.sys.stat w p).1 = 0 ∨ (Posix.sys.stat w p).1 = -1 := by
  show (Posix.stat w p).1 = 0 ∨ (Posix.stat w p).1 = -1
  unfold Posix.stat
  cases w.files p <;> simp

theorem Posix.chmod_code (w : Posix) (p : List Int) (m : Nat) :
    (Posix.sys.chmod w p m).1 = 0 ∨ (Posix.sys.chmod w p m).1 = -1 := by
  show (Posix.chmod w p m).1 = 0 ∨ (Posix.chmod w p m).1 = -1
  unfold Posix.chmod
  cases w.files p <;> simp

theorem Posix.utime_code (w : Posix) (p : List Int) (t : Int) :
    (Posix.sys.utime w p t).1 = 0 ∨ (Posix.sys.utime w p t).1 = -1 := by
  show (Posix.utime w p t).1 = 0 ∨ (Posix.utime w p t).1 = -1
  unfold Posix.utime
  cases w.files p
  · simp
  · by_cases ht : t = 0
    · simp [ht]
    · cases hm : w.mem t <;> simp [ht, hm]

/-- C7 on the reference operating system: copying from the existing file `f`
to the existing file `r` without the modification time succeeds, and copying
from a missing file fails after the one `stat`, leaving the world as it was. -/
theorem internalCopyAttributes_result_witness :
    ((internalCopyAttributes Posix.sys demoWorld [102] [114] false).result = true ↔
      (Posix.sys.stat demoWorld (getByteArray [102])).1 = 0 ∧
      (Posix.sys.chmod demoWorld (getByteArray [114])
        (Posix.sys.stat demoWorld (getByteArray [102])).2.st_mode).1 = 0 ∧
      (false = false ∨
        (Posix.sys.utime (Posix.sys.chmod demoWorld (getByteArray [114])
            (Posix.sys.stat demoWorld (getByteArray [102])).2.st_mode).2 (getByteArray [114])
          (Posix.sys.stat demoWorld (getByteArray [102])).2.st_mtime).1 = 0)) ∧
    (internalCopyAttributes Posix.sys demoWorld [102] [114] false).result = true ∧
    (internalCopyAttributes Posix.sys demoWorld [120] [114] true).result = false ∧
    (internalCopyAttributes Posix.sys demoWorld [120] [114] true).trace =
      [Call.stat (getByteArray [120])] ∧
    (internalCopyAttributes Posix.sys demoWorld [120] [114] true).world = demoWorld := by
  have h1 := internalCopyAttributes_result Posix.sys Posix.stat_code Posix.chmod_code
    Posix.utime_code demoWorld [102] [114] false
  have h2 := internalCopyAttributes_result Posix.sys Posix.stat_code Posix.chmod_code
    Posix.utime_code demoWorld [120] [114] true
  exact ⟨h1.1, by decide, by decide, (h2.2.2 (by decide)).1, (h2.2.2 (by decide)).2⟩

/-- C8. Whenever `stat` of the source returns `0`, for both values of
`copyLastModified`: the second call of `internalCopyAttributes` is `chmod` on
the destination path with exactly the source's `st_mode`, and no other `chmod`
is made.  If that `chmod` returns `0`, a `stat` of the destination right after
it reports the permission bits `07777` just applied, and `utime` does not
change the mode `stat` reports, then after the call the destination's
permission bits equal the source's.  The ant entry point returns the same
outcome as the core entry point. -/
theorem internalCopyAttributes_mode {W : Type} (S : Sys W) (w : W)
    (source destination : List Int) (copyLastModified : Bool)
    (hstat : (S.stat w (getByteArray source)).1 = 0) :
    (∃ rest : List Call,
      (internalCopyAttributes S w source destination copyLastModified).trace =
        Call.stat (getByteArray source) ::
          Call.chmod (getByteArray destination) (S.stat w (getByteArray source)).2.st_mode ::
            rest ∧
      ∀ p m, Call.chmod p m ∉ rest) ∧
    ((S.chmod w (getByteArray destination) (S.stat w (getByteArray source)).2.st_mode).1 = 0 →
      (S.stat (S.chmod w (getByteArray destination)
          (S.stat w (getByteArray source)).2.st_mode).2
        (getByteArray destination)).2.st_mode &&& 0o7777 =
        (S.stat w (getByteArray source)).2.st_mode &&& 0o7777 →
      (S.stat (S.utime (S.chmod w (getByteArray destination)
            (S.stat w (getByteArray source)).2.st_mode).2 (getByteArray destination)
            (S.stat w (getByteArray source)).2.st_mtime).2
        (getByteArray destination)).2.st_mode =
        (S.stat (S.chmod w (getByteArray destination)
            (S.stat w (getByteArray source)).2.st_mode).2
          (getByteArray destination)).2.st_mode →
      (S.stat (internalCopyAttributes S w source destination copyLastModified).world
        (getByteArray destination)).2.st_mode &&& 0o7777 =
        (S.stat w (getByteArray source)).2.st_mode &&& 0o7777) ∧
    Java_org_eclipse_ant_core_EclipseFileUtils_internalCopyAttributes S w source destination
        copyLastModified =
      internalCopyAttributes S w source destination copyLastModified := by
  refine ⟨?_, ?_, rfl⟩
  · rw [internalCopyAttributes_trace, if_pos hstat]
    refine ⟨_, rfl, ?_⟩
    intro p m
    split_ifs <;> simp
  · intro hch hperm hut
    rw [internalCopyAttributes_world, if_pos hstat]
    split_ifs
    · rw [hut, hperm]
    · exact hperm

/-- C8 on the reference operating system: after copying the attributes of the
file `f` (mode `0100644`) to the read-only file `r`, with or without the
modification time, `r` has the permission bits `0644`. -/
theorem internalCopyAttributes_mode_witness :
    (Posix.sys.stat (internalCopyAttributes Posix.sys demoWorld [102] [114] false).world
      (getByteArray [114])).2.st_mode &&& 0o7777 = 0o644 ∧
    (Posix.sys.stat (internalCopyAttributes Posix.sys demoWorld [102] [114] true).world
      (getByteArray [114])).2.st_mode &&& 0o7777 = 0o644 := by
  have e : (Posix.sys.stat demoWorld (getByteArray [102])).2.st_mode &&& 0o7777 = 0o644 := by
    decide
  constructor
  · rw [← e]
    exact (internalCopyAttributes_mode Posix.sys demoWorld [102] [114] false
      (by decide)).2.1 (by decide) (by decide) (by decide)
  · rw [← e]
    exact (internalCopyAttributes_mode Posix.sys demoWorld [102] [114] true
      (by decide)).2.1 (by decide) (by decide) (by decide)

/-- C9, the code at two sources.  `internalCopyAttributes` puts the integer
`st_mtime` in the `times` pointer parameter of `utime`; no `struct utimbuf` is
built.

* Source `e`, last modified at the epoch (`st_mtime = 0`), destination `f`,
  `copyLastModified = true`: `stat`, `chmod` and `utime` all return `0` and the
  result is `true`, `utime` receives the null pointer, and afterwards the
  destination's modification time is the current time `1700000000`, not the
  source's `0`.
* Source `f` (`st_mtime = 1000000000`), destination `r`: `utime` receives the
  address `1000000000`, which holds no `struct utimbuf`; it returns `-1`, the
  result is `false` and the destination keeps its modification time
  `1000000003`. -/
theorem internalCopyAttributes_utime_gets_time_as_pointer :
    Posix.sys.stat demoWorld (getByteArray [101]) = (0, ⟨0o100600, 0⟩) ∧
    (Posix.sys.chmod demoWorld (getByteArray [102]) 0o100600).1 = 0 ∧
    (Posix.sys.utime (Posix.sys.chmod demoWorld (getByteArray [102]) 0o100600).2
      (getByteArray [102]) 0).1 = 0 ∧
    (internalCopyAttributes Posix.sys demoWorld [101] [102] true).trace =
      [Call.stat (getByteArray [101]), Call.chmod (getByteArray [102]) 0o100600,
        Call.utime (getByteArray [102]) 0] ∧
    (internalCopyAttributes Posix.sys demoWorld [101] [102] true).result = true ∧
    (Posix.sys.stat (internalCopyAttributes Posix.sys demoWorld [101] [102] true).world
      (getByteArray [102])).2.st_mtime = 1700000000 ∧
    (Posix.sys.stat (internalCopyAttributes Posix.sys demoWorld [101] [102] true).world
      (getByteArray [102])).2.st_mtime ≠
        (Posix.sys.stat demoWorld (getByteArray [101])).2.st_mtime ∧
    Posix.sys.stat demoWorld (getByteArray [102]) = (0, ⟨0o100644, 1000000000⟩) ∧
    (internalCopyAttributes Posix.sys demoWorld [102] [114] true).trace =
      [Call.stat (getByteArray [102]), Call.chmod (getByteArray [114]) 0o100644,
        Call.utime (getByteArray [114]) 1000000000] ∧
    (internalCopyAttributes Posix.sys demoWorld [102] [114] true).result = false ∧
    (Posix.sys.stat (internalCopyAttributes Posix.sys demoWorld [102] [114] true).world
      (getByteArray [114])).2.st_mtime = 1000000003 := by
  refine ⟨by decide, by decide, by decide, by decide, by decide, by decide, by decide,
    by decide, by decide, by decide, by decide⟩

/-- For every operating system: with `copyLastModified = false` no `utime` call
is made, and with `copyLastModified = true` after a successful `stat` and
`chmod` the last call is `utime` on the destination with the source's
`st_mtime` in the pointer parameter. -/
theorem internalCopyAttributes_utime_call {W : Type} (S : Sys W) (w : W)
    (source destination : List Int) :
    (∀ p t, Call.utime p t ∉ (internalCopyAttributes S w source destination false).trace) ∧
    ((S.stat w (getByteArray source)).1 = 0 →
      (S.chmod w (getByteArray destination) (S.stat w (getByteArray source)).2.st_mode).1 = 0 →
      (internalCopyAttributes S w source destination true).trace =
        [Call.stat (getByteArray source),
          Call.chmod (getByteArray destination) (S.stat w (getByteArray source)).2.st_mode,
          Call.utime (getByteArray destination) (S.stat w (getByteArray source)).2.st_mtime]) := by
  constructor
  · intro p t
    rw [internalCopyAttributes_trace]
    simp
  · intro h1 h2
    rw [internalCopyAttributes_trace]
    simp [h1, h2]

/-! ## The wide-character entry points -/

/-- C10. There is no Unicode support: `internalIsUnicode` is `false`, and for
every input `internalGetStatW` returns `0`, `internalSetReadOnlyW` returns
`false` and `internalCopyAttributesW` returns `false`, each without a system
call and leaving the world as it was. -/
theorem unicode_entry_points {W : Type} (S : Sys W) (w : W) (target source destination : List Nat)
    (readOnly copyLastModified : Bool) :
    internalIsUnicode = false ∧
    ((internalGetStatW S w target).result = 0 ∧
      (internalGetStatW S w target).trace = [] ∧
      (internalGetStatW S w target).world = w) ∧
    ((internalSetReadOnlyW S w target readOnly).result = false ∧
      (internalSetReadOnlyW S w target readOnly).trace = [] ∧
      (internalSetReadOnlyW S w target readOnly).world = w) ∧
    ((internalCopyAttributesW S w source destination copyLastModified).result = false ∧
      (internalCopyAttributesW S w source destination copyLastModified).trace = [] ∧
      (internalCopyAttributesW S w source destination copyLastModified).world = w) :=
  ⟨rfl, ⟨rfl, rfl, rfl⟩, ⟨rfl, rfl, rfl⟩, ⟨rfl, rfl, rfl⟩⟩

end CoreFS
